import Mathlib

/-!
# Verification of `cat` (changkun/cat, `cat.go`)

A shallow embedding of the single-file Unix-`cat` clone: path cleaning
(`path/filepath.Clean`), base-name extraction (`os.basename`, used by the
`FileInfo.Name` that `os.Lstat` returns), the `io.Copy` write loop, the
per-file `cat` function and the `main` driver.  Bytes are modelled as `Nat`,
Go `error` values as `Option String` (the message, `none` for `nil`), and the
filesystem as an oracle recording the answers of the three syscalls `cat`
performs (`Lstat`, `Readlink`, `Open`): the three calls are independent in
the code, so they are independent fields of the oracle.
-/

set_option autoImplicit false

namespace CatProg

/-- Backtracking loop of the `..` case of Go `filepath.Clean`
(`out.w--; for out.w > dotdot && out.index(out.w) != '/' { out.w-- }`):
`buf` is the buffer content, the argument is the write index after the
initial decrement; returns the final write index. -/
def btLoop (buf : List Char) (dotdot : Nat) : Nat → Nat
  | 0 => 0
  | w + 1 =>
    if dotdot < w + 1 ∧ buf.getD (w + 1) ' ' ≠ '/' then btLoop buf dotdot w
    else w + 1

/-- Main loop of Go `filepath.Clean` on a Unix path (separator `'/'`), reading
the remaining characters of the path.  `out` is the logical content of the
lazy buffer, `dotdot` the index that `..` backtracking may not cross.  The
first argument is fuel bounding the number of iterations: every iteration
consumes at least one character, so the length of the path suffices. -/
def cleanLoop (rooted : Bool) : Nat → Nat → List Char → List Char → List Char
  | _, _, out, [] => out
  | 0, _, out, _ :: _ => out
  | fuel + 1, dotdot, out, c :: rest =>
    if c = '/' then
      cleanLoop rooted fuel dotdot out rest
    else if c = '.' ∧ (rest = [] ∨ rest.headD ' ' = '/') then
      cleanLoop rooted fuel dotdot out rest
    else if c = '.' ∧ rest.headD ' ' = '.' ∧
        (rest.tail = [] ∨ rest.tail.headD ' ' = '/') then
      if dotdot < out.length then
        cleanLoop rooted fuel dotdot (out.take (btLoop out dotdot (out.length - 1))) rest.tail
      else if rooted = false then
        let out1 := (if 0 < out.length then out ++ ['/'] else out) ++ ['.', '.']
        cleanLoop rooted fuel out1.length out1 rest.tail
      else
        cleanLoop rooted fuel dotdot out rest.tail
    else
      let out1 :=
        if (rooted = true ∧ out.length ≠ 1) ∨ (rooted = false ∧ out.length ≠ 0)
        then out ++ ['/'] else out
      cleanLoop rooted fuel dotdot (out1 ++ (c :: rest).takeWhile (fun a => a ≠ '/'))
        ((c :: rest).dropWhile (fun a => a ≠ '/'))

/-- Go `path/filepath.Clean` for Unix paths: shortest lexically equivalent
path (collapse separators, drop `.` elements, resolve `..` purely
syntactically).  `cat` applies this to its argument before anything else. -/
def filepathClean (path : String) : String :=
  if path = "" then "."
  else
    let p := path.data
    let rooted := p.headD ' ' = '/'
    let out :=
      if rooted then cleanLoop true p.length 1 ['/'] (p.drop 1)
      else cleanLoop false p.length 0 [] p
    if out.length = 0 then "." else String.mk out

/-- Trailing-separator stripping of Go `os.basename`, phrased on the reversed
character list: remove leading `'/'` while at least two characters remain. -/
def dropTrailSlashes : List Char → List Char
  | '/' :: c :: rest => dropTrailSlashes (c :: rest)
  | cs => cs

/-- Go `os.basename` (`src/os/file_unix.go`): strip trailing slashes, then
keep everything after the last `'/'` among the remaining leading positions.
This is the `Name()` of the `FileInfo` that `os.Lstat(path)` returns. -/
def basename (name : String) : String :=
  match dropTrailSlashes name.data.reverse with
  | [] => ""
  | last :: revInit =>
    if revInit.any (fun a => a = '/') then
      String.mk ((revInit.takeWhile (fun a => a ≠ '/')).reverse ++ [last])
    else
      String.mk (last :: revInit).reverse

/-- What `os.Lstat` reports about a path, as far as `cat` inspects it: a
regular file, a directory (`IsDir()`), or a symbolic link (mode bit
`os.ModeSymlink`).  The `FileInfo` does not carry a link target; that is
obtained by the separate `os.Readlink` call. -/
inductive Entry where
  | file : Entry
  | dir : Entry
  | symlink : Entry
deriving DecidableEq

/-- `FileInfo.IsDir()`. -/
def Entry.isDir : Entry → Bool
  | .dir => true
  | _ => false

/-- `info.Mode() & os.ModeSymlink != 0`. -/
def Entry.isSymlink : Entry → Bool
  | .symlink => true
  | _ => false

/-- The answers of the filesystem to the three syscalls `cat` performs, as an
oracle: `lstat` (metadata without following symlinks; `none` = error),
`readlink` (a link's target; `none` = error, in which case `os.Readlink`
returns the empty string alongside the error), and `openFile` (`none` =
open error; `some bytes` means the opened handle reads exactly `bytes`
followed by end-of-file). -/
structure OS where
  lstat : String → Option Entry
  readlink : String → Option String
  openFile : String → Option (List Nat)

/-- A sink's `Write` method: from the sink state and the chunk handed over,
produce the new state, the count of bytes reported written, and the error
(`none` for `nil`). -/
def WriteFn (σ : Type) : Type := σ → List Nat → σ × Nat × Option String

/-- The copy loop of Go `io.Copy` (`io/io.go`): repeatedly read up to 32768
bytes from the source and hand the chunk to the sink's `Write`; report
`invalid write result` if the sink claims more than it was given, the sink's
own error if it returned one, `short write` on a silently partial write, and
`none` (success) once the source is exhausted.  The first argument is fuel
bounding the number of rounds; each round consumes at least one byte, so the
data's length suffices. -/
def copyLoop {σ : Type} (write : WriteFn σ) : Nat → σ → List Nat → σ × Option String
  | _, s, [] => (s, none)
  | 0, s, _ :: _ => (s, none)
  | fuel + 1, s, b :: bs =>
    match write s ((b :: bs).take 32768) with
    | (s1, nw, ew) =>
      if ((b :: bs).take 32768).length < nw then (s1, some "invalid write result")
      else
        match ew with
        | some e => (s1, some e)
        | none =>
          if nw ≠ ((b :: bs).take 32768).length then (s1, some "short write")
          else copyLoop write fuel s1 ((b :: bs).drop 32768)

/-- `io.Copy(w, f)` where the opened file `f` reads exactly `data`: run the
copy loop with enough fuel.  Returns the final sink state and the error. -/
def ioCopy {σ : Type} (write : WriteFn σ) (s : σ) (data : List Nat) : σ × Option String :=
  copyLoop write data.length s data

/-- The function `cat(src, w)` of `cat.go`: clean the path, `Lstat` it
(error: `"<path>: No such file or directory"`), reject directories (error:
`"<base name>: Is a directory"`), resolve one level of symbolic link while
discarding the `Readlink` error (on error the returned target is `""`), open
the resulting path (error: `"cannot open <path>"`), and copy everything to
the sink, returning `io.Copy`'s error verbatim.  Result: final sink state
and the returned error (`none` = success). -/
def cat {σ : Type} (os : OS) (src0 : String) (write : WriteFn σ) (s : σ) :
    σ × Option String :=
  let src := filepathClean src0
  match os.lstat src with
  | none => (s, some (src ++ ": No such file or directory"))
  | some i =>
    if i.isDir then (s, some (basename src ++ ": Is a directory"))
    else
      let src1 := if i.isSymlink then (os.readlink src).getD "" else src
      match os.openFile src1 with
      | none => (s, some ("cannot open " ++ src1))
      | some content => ioCopy write s content

/-- The sink modelling a writer that accepts every write (the tests'
`completeWriter`, and `os.Stdout` in the driver): state is the byte list
written so far; every chunk is retained in full with no error. -/
def completeWrite : WriteFn (List Nat) :=
  fun s b => (s ++ b, b.length, none)

/-- A sink that accepts exactly `cap` bytes in total and rejects the write
that would exceed the capacity with the error `e`, retaining the accepted
leading bytes of that write (the general shape of the tests'
`faultyWriter`, which is the case `cap = 0`, `e = "unexpected EOF"`). -/
def prefixWrite (cap : Nat) (e : String) : WriteFn (List Nat) :=
  fun s b =>
    if s.length + b.length ≤ cap then (s ++ b, b.length, none)
    else (s ++ b.take (cap - s.length), cap - s.length, some e)

/-- The `main` of `cat.go`, net of flag parsing: with no file arguments copy
stdin to stdout, otherwise run `cat` on each argument in order against
stdout, appending each per-file result to the error list; the deferred loop
then prints one line `"cat: <err>\n"` to stderr for every non-nil collected
error, after all files have been attempted.  Stdout is modelled as a sink
that accepts every write; the result is (stdout bytes, stderr text). -/
def mainProg (os : OS) (stdin : List Nat) (args : List String) : List Nat × String :=
  let r :=
    match args with
    | [] =>
      let c := ioCopy completeWrite ([] : List Nat) stdin
      (c.1, [c.2])
    | _ :: _ =>
      args.foldl
        (fun acc arg =>
          let r := cat os arg completeWrite acc.1
          (r.1, acc.2 ++ [r.2]))
        (([] : List Nat), ([] : List (Option String)))
  (r.1, String.join ((r.2.filterMap id).map (fun e => "cat: " ++ e ++ "\n")))

/-- A concrete filesystem oracle mirroring the repository's `testdata/`
directory as the tests describe it: `a.txt` and `b.md` regular files,
`c.txt` a symlink to `a.txt`, `d.txt` a symlink to the missing
`testdata/none.txt`, and `testdata` itself a directory.  Byte contents are
`"hello"` and `"world"` as ASCII codes. -/
def testFS : OS where
  lstat p :=
    if p = "testdata/a.txt" then some .file
    else if p = "testdata/b.md" then some .file
    else if p = "testdata/c.txt" then some .symlink
    else if p = "testdata/d.txt" then some .symlink
    else if p = "testdata" then some .dir
    else if p = "testdata/sub" then some .dir
    else none
  readlink p :=
    if p = "testdata/c.txt" then some "testdata/a.txt"
    else if p = "testdata/d.txt" then some "testdata/none.txt"
    else none
  openFile p :=
    if p = "testdata/a.txt" then some [104, 101, 108, 108, 111]
    else if p = "testdata/b.md" then some [119, 111, 114, 108, 100]
    else none

/-- The oracle of an empty filesystem: every syscall fails. -/
def emptyFS : OS where
  lstat _ := none
  readlink _ := none
  openFile _ := none

/-- An oracle exhibiting the race `cat` tolerates: `Lstat` reports
`lost.txt` to be a symbolic link, but by the time `Readlink` runs the link
is gone, so `Readlink` fails (and `os.Readlink` hands back `""`). -/
def raceFS : OS where
  lstat p := if p = "lost.txt" then some .symlink else none
  readlink _ := none
  openFile _ := none

/-- The path `cat` hands to `os.Open` after the symlink step: the cleaned
argument, except that for a symbolic link it is the `Readlink` answer (the
empty string when `Readlink` fails). -/
def resolvedSrc (os : OS) (p : String) : String :=
  match os.lstat (filepathClean p) with
  | some .symlink => (os.readlink (filepathClean p)).getD ""
  | _ => filepathClean p

/-- First error condition of `cat`, in checking order: `Lstat` fails. -/
def condNotFound (os : OS) (p : String) : Prop :=
  os.lstat (filepathClean p) = none

/-- Second error condition: the entry exists and is a directory. -/
def condIsDir (os : OS) (p : String) : Prop :=
  ∃ i, os.lstat (filepathClean p) = some i ∧ i.isDir = true

/-- Third error condition: the entry exists, is not a directory, and opening
the symlink-resolved path fails. -/
def condCannotOpen (os : OS) (p : String) : Prop :=
  (∃ i, os.lstat (filepathClean p) = some i ∧ i.isDir = false) ∧
    os.openFile (resolvedSrc os p) = none

/-- Fourth error condition: the file opens and the copy to the sink reports
an error (write failure). -/
def condWriteFail {σ : Type} (os : OS) (p : String) (write : WriteFn σ) (s : σ) : Prop :=
  (∃ i, os.lstat (filepathClean p) = some i ∧ i.isDir = false) ∧
    ∃ c, os.openFile (resolvedSrc os p) = some c ∧ (ioCopy write s c).2 ≠ none

/-! ## Sanity checks

Concrete evaluations matching the behavior the repository's own test suite
(`main_test.go`) records for the files under `testdata/`, plus the reference
behavior of `filepath.Clean` and the `FileInfo` base name. -/

example : filepathClean "a//b" = "a/b" := by decide
example : filepathClean "" = "." := by decide
example : filepathClean "./a/" = "a" := by decide
example : filepathClean "a/b/../../../c" = "../c" := by decide
example : filepathClean "/../a" = "/a" := by decide
example : filepathClean "testdata/a.txt" = "testdata/a.txt" := by decide
example : basename "testdata/a.txt" = "a.txt" := by decide
example : basename "/" = "/" := by decide
example : basename "abc//" = "abc" := by decide
example : basename "testdata" = "testdata" := by decide
example : cat testFS "testdata/a.txt" completeWrite [] =
    ([104, 101, 108, 108, 111], none) := by decide
example : cat testFS "testdata/c.txt" completeWrite [] =
    ([104, 101, 108, 108, 111], none) := by decide
example : cat testFS "none.txt" completeWrite [] =
    ([], some "none.txt: No such file or directory") := by decide
example : cat testFS "testdata" completeWrite [] =
    ([], some "testdata: Is a directory") := by decide
example : cat testFS "testdata/d.txt" completeWrite [] =
    ([], some "cannot open testdata/none.txt") := by decide
example : cat testFS "testdata/a.txt" (prefixWrite 0 "unexpected EOF") [] =
    ([], some "unexpected EOF") := by decide
example : mainProg testFS [] ["testdata/b.md", "none.txt"] =
    ([119, 111, 114, 108, 100], "cat: none.txt: No such file or directory\n") := by decide

/-! ## Branch lemmas for `cat` -/

theorem cat_lstat_none {σ : Type} (os : OS) (p : String) (write : WriteFn σ) (s : σ)
    (h : os.lstat (filepathClean p) = none) :
    cat os p write s = (s, some (filepathClean p ++ ": No such file or directory")) := by
  simp [cat, h]

theorem cat_lstat_dir {σ : Type} (os : OS) (p : String) (write : WriteFn σ) (s : σ)
    (i : Entry) (h : os.lstat (filepathClean p) = some i) (hd : i.isDir = true) :
    cat os p write s = (s, some (basename (filepathClean p) ++ ": Is a directory")) := by
  simp [cat, h, hd]

theorem resolvedSrc_eq (os : OS) (p : String) (i : Entry)
    (h : os.lstat (filepathClean p) = some i) :
    resolvedSrc os p =
      if i.isSymlink then (os.readlink (filepathClean p)).getD "" else filepathClean p := by
  cases i <;> simp [resolvedSrc, h, Entry.isSymlink]

theorem cat_open_none {σ : Type} (os : OS) (p : String) (write : WriteFn σ) (s : σ)
    (i : Entry) (h : os.lstat (filepathClean p) = some i) (hd : i.isDir = false)
    (ho : os.openFile (resolvedSrc os p) = none) :
    cat os p write s = (s, some ("cannot open " ++ resolvedSrc os p)) := by
  rw [resolvedSrc_eq os p i h] at ho ⊢
  simp [cat, h, hd, ho]

theorem cat_open_some {σ : Type} (os : OS) (p : String) (write : WriteFn σ) (s : σ)
    (i : Entry) (c : List Nat)
    (h : os.lstat (filepathClean p) = some i) (hd : i.isDir = false)
    (ho : os.openFile (resolvedSrc os p) = some c) :
    cat os p write s = ioCopy write s c := by
  rw [resolvedSrc_eq os p i h] at ho
  simp [cat, h, hd, ho]

/-! ## The copy loop against the two sink families -/

/-- With the always-accepting sink the copy loop appends the whole source and
succeeds, given enough fuel. -/
theorem copyLoop_completeWrite (fuel : Nat) :
    ∀ (s c : List Nat), c.length ≤ fuel →
      copyLoop completeWrite fuel s c = (s ++ c, none) := by
  induction fuel with
  | zero =>
    intro s c h
    have hc : c = [] := List.eq_nil_of_length_eq_zero (Nat.le_zero.mp h)
    subst hc
    simp [copyLoop]
  | succ n ih =>
    intro s c h
    cases c with
    | nil => simp [copyLoop]
    | cons b bs =>
      rw [copyLoop]
      show (if ((b :: bs).take 32768).length < ((b :: bs).take 32768).length then _ else _) = _
      rw [if_neg (lt_irrefl _), if_neg (by simp)]
      rw [ih (s ++ (b :: bs).take 32768) ((b :: bs).drop 32768)
        (by simp only [List.length_drop, List.length_cons] at h ⊢; omega)]
      rw [List.append_assoc, List.take_append_drop]

theorem ioCopy_completeWrite (s c : List Nat) :
    ioCopy completeWrite s c = (s ++ c, none) :=
  copyLoop_completeWrite c.length s c le_rfl

/-- With the capacity-`cap` sink, as soon as the source extends past the
capacity the copy stops with the sink's error, and the sink retains exactly
the bytes up to the capacity. -/
theorem copyLoop_prefixWrite (cap : Nat) (e : String) (fuel : Nat) :
    ∀ (s c : List Nat), c.length ≤ fuel → s.length ≤ cap → cap < s.length + c.length →
      copyLoop (prefixWrite cap e) fuel s c = (s ++ c.take (cap - s.length), some e) := by
  induction fuel with
  | zero =>
    intro s c hf hs hcap
    have hc : c = [] := List.eq_nil_of_length_eq_zero (Nat.le_zero.mp hf)
    subst hc
    simp only [List.length_nil, Nat.add_zero] at hcap
    omega
  | succ n ih =>
    intro s c hf hs hcap
    cases c with
    | nil => simp only [List.length_nil, Nat.add_zero] at hcap; omega
    | cons b bs =>
      rw [copyLoop]
      by_cases hfit : s.length + ((b :: bs).take 32768).length ≤ cap
      · -- the whole chunk fits below the capacity, so the write succeeds and
        -- the failure happens further down the data
        have hbs : 32768 ≤ bs.length + 1 := by
          simp only [List.length_take, List.length_cons] at hfit
          simp only [List.length_cons] at hcap
          omega
        have hlen : ((b :: bs).take 32768).length = 32768 := by
          simp only [List.length_take, List.length_cons]
          omega
        rw [hlen] at hfit
        rw [show prefixWrite cap e s ((b :: bs).take 32768) =
            (s ++ (b :: bs).take 32768, ((b :: bs).take 32768).length, none) from by
          simp only [prefixWrite]
          rw [if_pos (by omega)]]
        simp only []
        rw [if_neg (lt_irrefl _)]
        rw [if_neg (by simp)]
        rw [ih (s ++ (b :: bs).take 32768) ((b :: bs).drop 32768)
          (by simp only [List.length_drop, List.length_cons] at hf ⊢; omega)
          (by rw [List.length_append, hlen]; omega)
          (by rw [List.length_append, hlen, List.length_drop, List.length_cons]
              simp only [List.length_cons] at hcap
              omega)]
        have hsplit : cap - s.length = 32768 + (cap - s.length - 32768) := by
          omega
        have harith : cap - (s ++ (b :: bs).take 32768).length = cap - s.length - 32768 := by
          simp only [List.length_append, hlen]; omega
        rw [harith, List.append_assoc]
        rw [show (b :: bs).take (cap - s.length) =
            (b :: bs).take 32768 ++ ((b :: bs).drop 32768).take (cap - s.length - 32768) from by
          rw [← List.take_add, ← hsplit]]
      · -- the chunk crosses the capacity: the sink reports the retained count
        -- together with the error, and the copy stops here
        have hcross : cap - s.length < ((b :: bs).take 32768).length := by omega
        rw [show prefixWrite cap e s ((b :: bs).take 32768) =
            (s ++ ((b :: bs).take 32768).take (cap - s.length), cap - s.length, some e) from by
          simp only [prefixWrite]
          rw [if_neg hfit]]
        simp only []
        rw [if_neg (by omega)]
        rw [show ((b :: bs).take 32768).take (cap - s.length) = (b :: bs).take (cap - s.length) from by
          rw [List.take_take, min_eq_left
            (by simp only [List.length_take, List.length_cons] at hcross; omega)]]


theorem ioCopy_prefixWrite (cap : Nat) (e : String) (s c : List Nat)
    (hs : s.length ≤ cap) (hcap : cap < s.length + c.length) :
    ioCopy (prefixWrite cap e) s c = (s ++ c.take (cap - s.length), some e) :=
  copyLoop_prefixWrite cap e c.length s c le_rfl hs hcap

/-- Running `cat` against the always-accepting sink from any starting state
just appends what a run from the empty state produces, with the same error:
the driver's stdout accumulates the per-file outputs. -/
theorem cat_completeWrite_shift (os : OS) (a : String) (s : List Nat) :
    cat os a completeWrite s =
      (s ++ (cat os a completeWrite []).1, (cat os a completeWrite []).2) := by
  rcases hl : os.lstat (filepathClean a) with _ | i
  · rw [cat_lstat_none os a completeWrite s hl, cat_lstat_none os a completeWrite [] hl]
    simp
  · rcases hd : i.isDir with _ | _
    · rcases ho : os.openFile (resolvedSrc os a) with _ | c
      · rw [cat_open_none os a completeWrite s i hl hd ho,
          cat_open_none os a completeWrite [] i hl hd ho]
        simp
      · rw [cat_open_some os a completeWrite s i c hl hd ho,
          cat_open_some os a completeWrite [] i c hl hd ho,
          ioCopy_completeWrite, ioCopy_completeWrite]
        simp
    · rw [cat_lstat_dir os a completeWrite s i hl hd,
        cat_lstat_dir os a completeWrite [] i hl hd]
      simp

/-- The accumulator form of the driver's loop over its arguments: starting
from any stdout prefix and error list, the loop appends every argument's
individually-produced bytes in order, and appends one error slot per
argument in order. -/
theorem foldl_cat_shift (os : OS) :
    ∀ (args : List String) (out : List Nat) (errs : List (Option String)),
      args.foldl
        (fun acc arg =>
          let r := cat os arg completeWrite acc.1
          (r.1, acc.2 ++ [r.2]))
        (out, errs) =
      (out ++ (args.map (fun a => (cat os a completeWrite ([] : List Nat)).1)).flatten,
       errs ++ args.map (fun a => (cat os a completeWrite ([] : List Nat)).2)) := by
  intro args
  induction args with
  | nil => intro out errs; simp
  | cons a rest ih =>
    intro out errs
    rw [List.foldl_cons]
    show rest.foldl _ ((cat os a completeWrite out).1, errs ++ [(cat os a completeWrite out).2]) = _
    rw [cat_completeWrite_shift os a out]
    rw [ih]
    simp

/-! ## The claims -/

/-- C1: for a regular file (metadata reports a regular file at the cleaned
path and opening that path yields bytes `c`), `cat` against a sink accepting
every write succeeds, and the bytes written to the sink are exactly `c`, in
order, each byte exactly once — for arbitrary (text or binary) content. -/
theorem cat_regular_file_exact_copy (os : OS) (p : String) (c s : List Nat)
    (hstat : os.lstat (filepathClean p) = some .file)
    (hopen : os.openFile (filepathClean p) = some c) :
    cat os p completeWrite s = (s ++ c, none) := by
  have hr : resolvedSrc os p = filepathClean p := by
    simp [resolvedSrc, hstat]
  rw [cat_open_some os p completeWrite s .file c hstat rfl (by rw [hr]; exact hopen),
    ioCopy_completeWrite]

/-- C1 witness: the regular file `testdata/a.txt` (bytes of "hello") is
reproduced exactly. -/
theorem cat_regular_file_exact_copy_witness :
    cat testFS "testdata/a.txt" completeWrite [] = ([104, 101, 108, 108, 111], none) :=
  (cat_regular_file_exact_copy testFS "testdata/a.txt" [104, 101, 108, 108, 111] []
    (by decide) (by decide)).trans (by decide)

/-- C2 counterexample: for the path `"a//b"` (metadata retrieval fails for
every path on the empty filesystem), the not-found message names the cleaned
path `"a/b"` and not the path `"a//b"` as given — the given path does not
even occur in the message. -/
theorem cat_notFound_counterexample :
    (cat emptyFS "a//b" completeWrite ([] : List Nat)).2 =
        some "a/b: No such file or directory" ∧
      (cat emptyFS "a//b" completeWrite ([] : List Nat)).2 ≠
        some "a//b: No such file or directory" ∧
      ¬ List.IsInfix "a//b".data "a/b: No such file or directory".data :=
  ⟨by decide, by decide, by decide⟩

/-- C2 (amended): for every path `p` for which metadata retrieval of the
cleaned path fails, `cat` fails with the not-found error naming the cleaned
path `filepath.Clean(p)` — which is `p` exactly as given whenever `p` is
already in cleaned form. -/
theorem cat_notFound_names_cleaned_path {σ : Type} (os : OS) (p : String)
    (write : WriteFn σ) (s : σ)
    (h : os.lstat (filepathClean p) = none) :
    cat os p write s = (s, some (filepathClean p ++ ": No such file or directory")) :=
  cat_lstat_none os p write s h

/-- C2 witness: an already-clean missing path is named as given. -/
theorem cat_notFound_names_cleaned_path_witness :
    cat emptyFS "x//y.txt" completeWrite ([] : List Nat) =
      ([], some "x/y.txt: No such file or directory") :=
  (cat_notFound_names_cleaned_path emptyFS "x//y.txt" completeWrite []
    (by decide)).trans (by decide)

/-- C3: a path that `Lstat` (not following symlinks) reports as a directory
fails with the is-a-directory error naming the entry's base name (the
`FileInfo.Name`), not its full path. -/
theorem cat_directory_error_basename {σ : Type} (os : OS) (p : String)
    (write : WriteFn σ) (s : σ)
    (h : os.lstat (filepathClean p) = some .dir) :
    cat os p write s = (s, some (basename (filepathClean p) ++ ": Is a directory")) :=
  cat_lstat_dir os p write s .dir h rfl

/-- C3 witness: for the directory `testdata/sub` the message names `sub`,
the base name, not the full path. -/
theorem cat_directory_error_basename_witness :
    cat testFS "testdata/sub" completeWrite ([] : List Nat) =
      ([], some "sub: Is a directory") :=
  (cat_directory_error_basename testFS "testdata/sub" completeWrite []
    (by decide)).trans (by decide)

/-- C4: a symbolic link whose target `t` does not open fails with a
cannot-open error naming the unresolved target path `t`, not the link path
itself. -/
theorem cat_dangling_symlink_names_target {σ : Type} (os : OS) (p t : String)
    (write : WriteFn σ) (s : σ)
    (hstat : os.lstat (filepathClean p) = some .symlink)
    (hlink : os.readlink (filepathClean p) = some t)
    (hopen : os.openFile t = none) :
    cat os p write s = (s, some ("cannot open " ++ t)) := by
  have hr : resolvedSrc os p = t := by
    simp [resolvedSrc, hstat, hlink]
  have h1 := cat_open_none os p write s .symlink hstat rfl (by rw [hr]; exact hopen)
  rw [hr] at h1
  exact h1

/-- C4 witness: `testdata/d.txt` links to the missing `testdata/none.txt`;
the error names the target, not `testdata/d.txt`. -/
theorem cat_dangling_symlink_names_target_witness :
    cat testFS "testdata/d.txt" completeWrite ([] : List Nat) =
      ([], some "cannot open testdata/none.txt") :=
  (cat_dangling_symlink_names_target testFS "testdata/d.txt" "testdata/none.txt"
    completeWrite [] (by decide) (by decide) (by decide)).trans (by decide)

/-- C5: a symbolic link whose target opens as a regular file with bytes `c`
succeeds against an always-accepting sink and produces exactly the target's
content — the link is followed exactly one level, via the `Readlink`
answer. -/
theorem cat_symlink_one_level_copy (os : OS) (p t : String) (c s : List Nat)
    (hstat : os.lstat (filepathClean p) = some .symlink)
    (hlink : os.readlink (filepathClean p) = some t)
    (hopen : os.openFile t = some c) :
    cat os p completeWrite s = (s ++ c, none) := by
  have hr : resolvedSrc os p = t := by
    simp [resolvedSrc, hstat, hlink]
  rw [cat_open_some os p completeWrite s .symlink c hstat rfl (by rw [hr]; exact hopen),
    ioCopy_completeWrite]

/-- C5 witness: `testdata/c.txt` links to `testdata/a.txt` and produces its
content "hello". -/
theorem cat_symlink_one_level_copy_witness :
    cat testFS "testdata/c.txt" completeWrite [] = ([104, 101, 108, 108, 111], none) :=
  (cat_symlink_one_level_copy testFS "testdata/c.txt" "testdata/a.txt"
    [104, 101, 108, 108, 111] [] (by decide) (by decide) (by decide)).trans (by decide)

/-- C6: on a regular file with bytes `c`, a sink that accepts a prefix (the
first `cap` bytes) and then rejects the crossing write with error `e` makes
`cat` fail with exactly the sink's error `e`, unwrapped; the accepted bytes
remain in the sink (no rollback). -/
theorem cat_sink_failure_verbatim (os : OS) (p : String) (c : List Nat)
    (cap : Nat) (e : String)
    (hstat : os.lstat (filepathClean p) = some .file)
    (hopen : os.openFile (filepathClean p) = some c)
    (hcap : cap < c.length) :
    cat os p (prefixWrite cap e) [] = (c.take cap, some e) := by
  have hr : resolvedSrc os p = filepathClean p := by
    simp [resolvedSrc, hstat]
  rw [cat_open_some os p (prefixWrite cap e) [] .file c hstat rfl (by rw [hr]; exact hopen),
    ioCopy_prefixWrite cap e [] c (by simp) (by simpa using hcap)]
  simp

/-- C6 witness: on "hello" a sink accepting 2 bytes and then failing with
"unexpected EOF" leaves exactly the two bytes and surfaces that error. -/
theorem cat_sink_failure_verbatim_witness :
    cat testFS "testdata/a.txt" (prefixWrite 2 "unexpected EOF") [] =
      ([104, 101], some "unexpected EOF") :=
  (cat_sink_failure_verbatim testFS "testdata/a.txt" [104, 101, 108, 108, 111] 2
    "unexpected EOF" (by decide) (by decide) (by decide)).trans (by decide)

/-- C7: `cat` returns at most one error, arising from exactly four mutually
exclusive conditions checked in the fixed order not-found, is-a-directory,
cannot-open, write-failure; an earlier condition holding fully determines
the result, so no later check is reached. -/
theorem cat_error_taxonomy {σ : Type} (os : OS) (p : String) (write : WriteFn σ) (s : σ) :
    ((cat os p write s).2 ≠ none ↔
      condNotFound os p ∨ condIsDir os p ∨ condCannotOpen os p ∨
        condWriteFail os p write s) ∧
    ¬ (condNotFound os p ∧ condIsDir os p) ∧
    ¬ (condNotFound os p ∧ condCannotOpen os p) ∧
    ¬ (condNotFound os p ∧ condWriteFail os p write s) ∧
    ¬ (condIsDir os p ∧ condCannotOpen os p) ∧
    ¬ (condIsDir os p ∧ condWriteFail os p write s) ∧
    ¬ (condCannotOpen os p ∧ condWriteFail os p write s) ∧
    (condNotFound os p →
      cat os p write s = (s, some (filepathClean p ++ ": No such file or directory"))) ∧
    (condIsDir os p →
      cat os p write s = (s, some (basename (filepathClean p) ++ ": Is a directory"))) ∧
    (condCannotOpen os p →
      cat os p write s = (s, some ("cannot open " ++ resolvedSrc os p))) ∧
    (condWriteFail os p write s →
      ∃ c, os.openFile (resolvedSrc os p) = some c ∧
        cat os p write s = ioCopy write s c) := by
  rcases hl : os.lstat (filepathClean p) with _ | i
  · have hc := cat_lstat_none os p write s hl
    simp [condNotFound, condIsDir, condCannotOpen, condWriteFail, hl, hc]
  · rcases hd : i.isDir with _ | _
    · rcases ho : os.openFile (resolvedSrc os p) with _ | c
      · have hc := cat_open_none os p write s i hl hd ho
        simp [condNotFound, condIsDir, condCannotOpen, condWriteFail, hl, hd, ho, hc]
      · have hc := cat_open_some os p write s i c hl hd ho
        simp [condNotFound, condIsDir, condCannotOpen, condWriteFail, hl, hd, ho, hc]
    · have hc := cat_lstat_dir os p write s i hl hd
      simp [condNotFound, condIsDir, condCannotOpen, condWriteFail, hl, hd, hc]

/-- C7 witness: at the directory `testdata` the is-a-directory condition
holds and, by the taxonomy, determines the result. -/
theorem cat_error_taxonomy_witness :
    cat testFS "testdata" completeWrite ([] : List Nat) =
      ([], some "testdata: Is a directory") :=
  (((cat_error_taxonomy testFS "testdata" completeWrite []).2.2.2.2.2.2.2.2.1)
    ⟨Entry.dir, by decide, by decide⟩).trans (by decide)

/-- C8: with at least one file argument the program writes each argument's
bytes to stdout strictly in argument order; a failure on one file does not
stop the remaining files (every argument contributes its own output), and
stderr consists of exactly one line `"cat: <message>\n"` per failed file, in
order, assembled from the collected error list only after every file has
been attempted. -/
theorem main_streams_args_in_order (os : OS) (stdin : List Nat) (args : List String)
    (h : args ≠ []) :
    mainProg os stdin args =
      ((args.map (fun a => (cat os a completeWrite ([] : List Nat)).1)).flatten,
       String.join ((args.filterMap (fun a => (cat os a completeWrite ([] : List Nat)).2)).map
         (fun e => "cat: " ++ e ++ "\n"))) := by
  rcases args with _ | ⟨a, rest⟩
  · exact absurd rfl h
  · simp only [mainProg]
    rw [foldl_cat_shift]
    simp only [List.nil_append]
    rw [List.filterMap_map, Function.id_comp]

/-- C8 witness: the middle argument fails; both other files' bytes appear in
order on stdout and the single error line appears on stderr. -/
theorem main_streams_args_in_order_witness :
    mainProg testFS [] ["testdata/b.md", "none.txt", "testdata/a.txt"] =
      ([119, 111, 114, 108, 100, 104, 101, 108, 108, 111],
       "cat: none.txt: No such file or directory\n") :=
  (main_streams_args_in_order testFS [] ["testdata/b.md", "none.txt", "testdata/a.txt"]
    (by decide)).trans (by decide)

/-- C9: when `Lstat` reports a symbolic link but reading the link target
fails, `cat` proceeds to the open step with the empty string as the path
(what `os.Readlink` returned alongside its discarded error), so the failure
is a cannot-open error naming the empty string — given that opening the
empty path fails, as it always does. -/
theorem cat_readlink_failure_empty_open {σ : Type} (os : OS) (p : String)
    (write : WriteFn σ) (s : σ)
    (hstat : os.lstat (filepathClean p) = some .symlink)
    (hlink : os.readlink (filepathClean p) = none)
    (hopen : os.openFile "" = none) :
    cat os p write s = (s, some "cannot open ") := by
  have hr : resolvedSrc os p = "" := by
    simp [resolvedSrc, hstat, hlink]
  have h1 := cat_open_none os p write s .symlink hstat rfl (by rw [hr]; exact hopen)
  rw [hr] at h1
  exact h1.trans (by rw [String.append_empty])

/-- C9 witness: in the race oracle, `lost.txt` is a link whose `Readlink`
fails; the error names the empty string. -/
theorem cat_readlink_failure_empty_open_witness :
    cat raceFS "lost.txt" completeWrite ([] : List Nat) =
      ([], some "cannot open ") :=
  cat_readlink_failure_empty_open raceFS "lost.txt" completeWrite []
    (by decide) (by decide) (by decide)

/-- C10: on any failure before the copy step — not-found, is-a-directory, or
cannot-open — the sink state is unchanged: zero bytes have been written. -/
theorem cat_precopy_failure_writes_nothing {σ : Type} (os : OS) (p : String)
    (write : WriteFn σ) (s : σ)
    (h : condNotFound os p ∨ condIsDir os p ∨ condCannotOpen os p) :
    (cat os p write s).1 = s := by
  rcases h with h | ⟨i, hl, hd⟩ | ⟨⟨i, hl, hd⟩, ho⟩
  · rw [cat_lstat_none os p write s h]
  · rw [cat_lstat_dir os p write s i hl hd]
  · rw [cat_open_none os p write s i hl hd ho]

/-- C10 witness: a not-found failure leaves a pre-filled sink untouched. -/
theorem cat_precopy_failure_writes_nothing_witness :
    (cat testFS "none.txt" completeWrite [1, 2, 3]).1 = [1, 2, 3] :=
  cat_precopy_failure_writes_nothing testFS "none.txt" completeWrite [1, 2, 3]
    (Or.inl rfl)

end CatProg
